import Mathlib

/-!
# ModuleSerializer (src/processor/module_serializer.cc)

A shallow embedding of `ModuleSerializer` and the properties of its
size pass, write pass and conversion drivers.

Modelling conventions.

* Pointers (`char*`) are natural-number addresses.  Arithmetic in `size_t`
  wraps at `2 ^ 64` (`to_size_t`).
* Memory is a map from addresses to byte values.
* The codecs of `simple_serializer.h` / `map_serializers.h`, the constants
  `kNumberMaps_` and `WindowsFrameInfo::STACK_INFO_LAST`, the section container
  types and the fast resolver are declared outside module_serializer.cc; they
  are parameters of the embedding.
* A new-expression `new char[n]` either yields a (non-null) block or throws
  `std::bad_alloc`; nothing in module_serializer.cc catches the exception.
* `dynamic_cast`, `delete[]` and the construction of the `string` copy have no
  effect on the quantities studied here and are not represented.
-/

namespace google_breakpad

/-! ## Memory -/

/-- Byte-addressed memory: address to byte value. -/
abbrev Mem := Nat → Nat

/-- The effect of `memcpy(dest, src, src.length)`: the bytes of `src` are stored
at `dest, dest + 1, ...`; every other address keeps its content. -/
def memcpy (mem : Mem) (dest : Nat) (src : List Nat) : Mem :=
  fun a => if dest ≤ a ∧ a - dest < src.length then src.getD (a - dest) 0 else mem a

/-- The `n` bytes stored at `p, p + 1, ..., p + n - 1`
(what `string(p, n)` copies out of memory). -/
def readBytes (mem : Mem) (p n : Nat) : List Nat :=
  (List.range n).map (fun k => mem (p + k))

/-- Object representation of one `uint64_t` (8 bytes, least significant first). -/
def uint64_bytes (v : Nat) : List Nat :=
  (List.range 8).map (fun k => v / 256 ^ k % 256)

/-- The `uint64_t` stored at address `a` (8 bytes, least significant first). -/
def read_uint64 (mem : Mem) (a : Nat) : Nat :=
  ((List.range 8).map (fun k => mem (a + k) * 256 ^ k)).sum

/-! ## Codecs -/

/-- Modelled from the spec: the codec classes (`SimpleSerializer`,
`StdMapSerializer`, `RangeMapSerializer`, ... of simple_serializer.h and
map_serializers.h) are not in the source at hand.  Per the codec contract a
codec has a size function, and its `Write(value, dest)` copies the encoded bytes
of the value starting at `dest` and returns the position immediately after
them.  `encode` is the byte sequence `Write` copies. -/
structure Serializer (α : Type) where
  /-- The size the codec announces for a value. -/
  SizeOf : α → Nat
  /-- The bytes the codec writes for a value. -/
  encode : α → List Nat

/-- The call `codec.Write(value, dest)` on memory `st.1` with `dest = st.2`:
copies the encoded bytes to `dest` and returns the position after them. -/
def Serializer.Write {α : Type} (c : Serializer α) (v : α) (st : Mem × Nat) : Mem × Nat :=
  (memcpy st.1 st.2 (c.encode v), st.2 + (c.encode v).length)

/-- The hypothesis "the codec's Write advances the position by exactly what its
SizeOf returns for the same value". -/
def Serializer.Consistent {α : Type} (c : Serializer α) : Prop :=
  ∀ (v : α) (st : Mem × Nat), (c.Write v st).2 = st.2 + c.SizeOf v

/-! ## The module and the serializer -/

/-- The container types of the sections of a `BasicSourceLineResolver::Module`
(declared outside the source at hand, hence parameters). -/
structure MapTypes where
  FileMap : Type
  FunctionMap : Type
  PublicSymbolMap : Type
  WindowsFrameInfoMap : Type
  CfiInitialRuleMap : Type
  CfiDeltaRuleMap : Type
  InlineOriginMap : Type

/-- The fields of `BasicSourceLineResolver::Module` the serializer reads. -/
structure Module (T : MapTypes) where
  name_ : String
  is_corrupt_ : Bool
  files_ : T.FileMap
  functions_ : T.FunctionMap
  public_symbols_ : T.PublicSymbolMap
  /-- The array `windows_frame_info_[STACK_INFO_LAST]`, by index. -/
  windows_frame_info_ : Nat → T.WindowsFrameInfoMap
  cfi_initial_rules_ : T.CfiInitialRuleMap
  cfi_delta_rules_ : T.CfiDeltaRuleMap
  inline_origins_ : T.InlineOriginMap

/-- The immutable part of a `ModuleSerializer`: the two constants it uses and
its member codecs.  (The mutable member `map_sizes_` is passed as state.) -/
structure ModuleSerializer (T : MapTypes) where
  /-- The constant `WindowsFrameInfo::STACK_INFO_LAST`. -/
  STACK_INFO_LAST : Nat
  /-- The constant `kNumberMaps_`, the length of `map_sizes_`. -/
  kNumberMaps_ : Nat
  /-- The codec `SimpleSerializer<bool>`. -/
  bool_serializer : Serializer Bool
  /-- The codec `SimpleSerializer<char>` (a char is its byte value). -/
  char_serializer : Serializer Nat
  files_serializer_ : Serializer T.FileMap
  functions_serializer_ : Serializer T.FunctionMap
  pubsym_serializer_ : Serializer T.PublicSymbolMap
  wfi_serializer_ : Serializer T.WindowsFrameInfoMap
  cfi_init_rules_serializer_ : Serializer T.CfiInitialRuleMap
  cfi_delta_rules_serializer_ : Serializer T.CfiDeltaRuleMap
  inline_origin_serializer_ : Serializer T.InlineOriginMap

/-- The member array `uint64_t map_sizes_[kNumberMaps_]`, by index. -/
abbrev MapSizes := Nat → Nat

/-- The assignment `map_sizes_[i] = v`. -/
def MapSizes.set (ms : MapSizes) (i v : Nat) : MapSizes :=
  fun j => if j = i then v else ms j

/-- The value of a `size_t` expression: arithmetic in `size_t` is modulo `2 ^ 64`. -/
def to_size_t (n : Nat) : Nat := n % 2 ^ 64

/-- The function `ModuleSerializer::SizeOf`: returns `total_size_alloc_` (a
`size_t`) and the updated `map_sizes_`. -/
def ModuleSerializer.SizeOf {T : MapTypes} (self : ModuleSerializer T)
    (map_sizes_ : MapSizes) (module : Module T) : Nat × MapSizes :=
  let total_size_alloc_ := 0
  -- Size of the "is_corrupt" flag.
  let total_size_alloc_ :=
    to_size_t (total_size_alloc_ + self.bool_serializer.SizeOf module.is_corrupt_)
  -- Compute memory size for each map component in Module class.
  let map_index := 0
  let map_sizes_ := map_sizes_.set map_index (self.files_serializer_.SizeOf module.files_)
  let map_index := map_index + 1
  let map_sizes_ := map_sizes_.set map_index (self.functions_serializer_.SizeOf module.functions_)
  let map_index := map_index + 1
  let map_sizes_ := map_sizes_.set map_index (self.pubsym_serializer_.SizeOf module.public_symbols_)
  let map_index := map_index + 1
  let loop := (List.range self.STACK_INFO_LAST).foldl
    (fun (acc : MapSizes × Nat) i =>
      (acc.1.set acc.2 (self.wfi_serializer_.SizeOf (module.windows_frame_info_ i)), acc.2 + 1))
    (map_sizes_, map_index)
  let map_sizes_ := loop.1
  let map_index := loop.2
  let map_sizes_ :=
    map_sizes_.set map_index (self.cfi_init_rules_serializer_.SizeOf module.cfi_initial_rules_)
  let map_index := map_index + 1
  let map_sizes_ :=
    map_sizes_.set map_index (self.cfi_delta_rules_serializer_.SizeOf module.cfi_delta_rules_)
  let map_index := map_index + 1
  let map_sizes_ :=
    map_sizes_.set map_index (self.inline_origin_serializer_.SizeOf module.inline_origins_)
  -- Header size.
  let total_size_alloc_ := to_size_t (total_size_alloc_ + to_size_t (self.kNumberMaps_ * 8))
  let total_size_alloc_ := (List.range self.kNumberMaps_).foldl
    (fun total i => to_size_t (total + map_sizes_ i)) total_size_alloc_
  -- Extra one byte for null terminator for C-string copy safety.
  let total_size_alloc_ := to_size_t (total_size_alloc_ + self.char_serializer.SizeOf 0)
  (total_size_alloc_, map_sizes_)

/-- The bytes `memcpy(dest, map_sizes_, kNumberMaps_ * sizeof(uint64_t))` copies:
the object representations of `map_sizes_[0], ..., map_sizes_[n - 1]`. -/
def header_bytes (map_sizes_ : MapSizes) (n : Nat) : List Nat :=
  (List.range n).flatMap (fun i => uint64_bytes (map_sizes_ i))

/-- The function `ModuleSerializer::Write` on memory `mem`: returns the updated
memory and the returned `dest`. -/
def ModuleSerializer.Write {T : MapTypes} (self : ModuleSerializer T)
    (map_sizes_ : MapSizes) (module : Module T) (mem : Mem) (dest : Nat) : Mem × Nat :=
  -- Write the is_corrupt flag.
  let st := self.bool_serializer.Write module.is_corrupt_ (mem, dest)
  -- Write header.
  let st : Mem × Nat :=
    (memcpy st.1 st.2 (header_bytes map_sizes_ self.kNumberMaps_), st.2 + self.kNumberMaps_ * 8)
  -- Write each map.
  let st := self.files_serializer_.Write module.files_ st
  let st := self.functions_serializer_.Write module.functions_ st
  let st := self.pubsym_serializer_.Write module.public_symbols_ st
  let st := (List.range self.STACK_INFO_LAST).foldl
    (fun st i => self.wfi_serializer_.Write (module.windows_frame_info_ i) st) st
  let st := self.cfi_init_rules_serializer_.Write module.cfi_initial_rules_ st
  let st := self.cfi_delta_rules_serializer_.Write module.cfi_delta_rules_ st
  let st := self.inline_origin_serializer_.Write module.inline_origins_ st
  -- Write a null terminator.
  let st := self.char_serializer.Write 0 st
  st

/-! ## Serialize and the conversion drivers -/

/-- The messages this file sends to `BPLOG`. -/
inductive LogEntry where
  /-- INFO "Converting symbol " id -/
  | converting (id : String)
  /-- ERROR "ModuleSerializer: memory allocation failed, size to alloc: " n -/
  | allocation_failed (size_to_alloc : Nat)
  /-- ERROR "size_to_alloc differs from size_written: " a " vs " b -/
  | size_differs (size_to_alloc size_written : Nat)
  /-- ERROR "Serialization failed for module: " name -/
  | serialization_failed (name : String)
  /-- INFO "Serialized Symbol Size " n -/
  | serialized_size (size : Nat)
  deriving DecidableEq, Repr

/-- The mutable state the serializer works on: its member `map_sizes_`, the
memory, the outcomes of the coming new-expressions `new char[n]` (`some p`: a
block at address `p`; `none`: the allocation cannot be satisfied and
`std::bad_alloc` is thrown), and the log. -/
structure State where
  map_sizes_ : MapSizes
  mem : Mem
  new_results : Nat → Option Nat
  log : List LogEntry

/-- How a call ends: it returns a value, or it is left by the `std::bad_alloc`
exception of a new-expression.  In both cases `state` is the state at that
moment. -/
inductive Outcome (α σ : Type) where
  | returned (value : α) (state : σ)
  | bad_alloc (state : σ)

/-- The returned value, if the call returned. -/
def Outcome.value? {α σ : Type} : Outcome α σ → Option α
  | Outcome.returned v _ => some v
  | Outcome.bad_alloc _ => none

/-- The state in which the call ended. -/
def Outcome.state {α σ : Type} : Outcome α σ → σ
  | Outcome.returned _ st => st
  | Outcome.bad_alloc st => st

/-- The function `ModuleSerializer::Serialize`.  The returned value is the
pointer (`none` for `nullptr`) and the value stored through `size`. -/
def ModuleSerializer.Serialize {T : MapTypes} (self : ModuleSerializer T)
    (module : Module T) (s : State) : Outcome (Option Nat × Nat) State :=
  -- Compute size of memory to allocate.
  let sz := self.SizeOf s.map_sizes_ module
  let size_to_alloc := sz.1
  let map_sizes_ := sz.2
  -- Allocate memory for serialized data.
  let new_results := fun k => s.new_results (k + 1)
  match s.new_results 0 with
  | none =>
    -- the new-expression throws: nothing below is executed
    Outcome.bad_alloc
      { map_sizes_ := map_sizes_, mem := s.mem, new_results := new_results, log := s.log }
  | some block =>
    -- a new-expression that returns yields a non-null pointer
    let serialized_data : Option Nat := some block
    match serialized_data with
    | none =>
      Outcome.returned (none, 0)
        { map_sizes_ := map_sizes_, mem := s.mem, new_results := new_results,
          log := s.log ++ [LogEntry.allocation_failed size_to_alloc] }
    | some serialized_data =>
      -- Write serialized data to allocated memory chunk.
      let w := self.Write map_sizes_ module s.mem serialized_data
      let end_address := w.2
      -- Verify the allocated memory size is equal to the size of data been written.
      let size_written := to_size_t (end_address - serialized_data)
      let log :=
        if size_to_alloc ≠ size_written then
          s.log ++ [LogEntry.size_differs size_to_alloc size_written]
        else s.log
      -- Set size and return the start address of memory chunk.
      Outcome.returned (some serialized_data, size_to_alloc)
        { map_sizes_ := map_sizes_, mem := w.1, new_results := new_results, log := log }

/-- The arguments of the `BasicCodeModule` constructor. -/
structure BasicCodeModule where
  base_address : Nat
  size : Nat
  code_file : String
  code_identifier : String
  debug_file : String
  debug_identifier : String
  version : String
  deriving DecidableEq, Repr

/-- Modelled from the spec: the consumer `FastSourceLineResolver` is not in the
source at hand.  It is a state of type `R` with the load operation
`LoadModuleUsingMapBuffer(module, map_buffer)`, which returns a bool (false
signals rejection) and may change the consumer's state. -/
structure FastSourceLineResolver (R : Type) where
  LoadModuleUsingMapBuffer : R → BasicCodeModule → List Nat → Bool × R

/-- The source `BasicSourceLineResolver`: its module map `modules_`, as the
sequence of (module id, module) entries in iteration order. -/
structure BasicSourceLineResolver (T : MapTypes) where
  modules_ : List (String × Module T)

/-- The function `ModuleSerializer::SerializeModuleAndLoadIntoFastResolver` for
the map entry `iter`; `fast_resolver` is the state of the (non-null) consumer.
Returns the bool; the state is the consumer's and the serializer's. -/
def ModuleSerializer.SerializeModuleAndLoadIntoFastResolver {T : MapTypes} {R : Type}
    (self : ModuleSerializer T) (ops : FastSourceLineResolver R)
    (iter : String × Module T) (fast_resolver : R) (s : State) : Outcome Bool (R × State) :=
  let s := { s with log := s.log ++ [LogEntry.converting iter.1] }
  let basic_module := iter.2
  match self.Serialize basic_module s with
  | Outcome.bad_alloc s => Outcome.bad_alloc (fast_resolver, s)
  | Outcome.returned r s =>
    let symbol_data := r.1
    let size := r.2
    match symbol_data with
    | none =>
      Outcome.returned false
        (fast_resolver,
          { s with log := s.log ++ [LogEntry.serialization_failed basic_module.name_] })
    | some symbol_data =>
      let s := { s with log := s.log ++ [LogEntry.serialized_size size] }
      -- Copy the data into string.
      let symbol_data_string := readBytes s.mem symbol_data size
      let code_module : BasicCodeModule := ⟨0, 0, iter.1, "", "", "", ""⟩
      let l := ops.LoadModuleUsingMapBuffer fast_resolver code_module symbol_data_string
      Outcome.returned l.1 (l.2, s)

/-- The loop of `ModuleSerializer::ConvertAllModules` over the entries of
`modules_` from `iter` on: the bool of each call is dropped; an exception
leaves the loop. -/
def ModuleSerializer.traverse {T : MapTypes} {R : Type}
    (self : ModuleSerializer T) (ops : FastSourceLineResolver R) :
    List (String × Module T) → R → State → Outcome Unit (R × State)
  | [], fast_resolver, s => Outcome.returned () (fast_resolver, s)
  | iter :: rest, fast_resolver, s =>
    match self.SerializeModuleAndLoadIntoFastResolver ops iter fast_resolver s with
    | Outcome.bad_alloc st => Outcome.bad_alloc st
    | Outcome.returned _ st => traverse self ops rest st.1 st.2

/-- The function `ModuleSerializer::ConvertAllModules` (returns `void`).  A null
pointer argument is `none`; the state is the consumer's (behind
`fast_resolver`) and the serializer's. -/
def ModuleSerializer.ConvertAllModules {T : MapTypes} {R : Type}
    (self : ModuleSerializer T) (ops : FastSourceLineResolver R)
    (basic_resolver : Option (BasicSourceLineResolver T)) (fast_resolver : Option R)
    (s : State) : Outcome Unit (Option R × State) :=
  match basic_resolver, fast_resolver with
  | some basic, some fast =>
    -- Traverse module list in basic resolver.
    match self.traverse ops basic.modules_ fast s with
    | Outcome.bad_alloc st => Outcome.bad_alloc (some st.1, st.2)
    | Outcome.returned _ st => Outcome.returned () (some st.1, st.2)
  | _, _ => Outcome.returned () (fast_resolver, s)

/-- The function `ModuleSerializer::ConvertOneModule`: returns the bool; the
state is the consumer's (behind `fast_resolver`) and the serializer's. -/
def ModuleSerializer.ConvertOneModule {T : MapTypes} {R : Type}
    (self : ModuleSerializer T) (ops : FastSourceLineResolver R)
    (moduleid : String)
    (basic_resolver : Option (BasicSourceLineResolver T)) (fast_resolver : Option R)
    (s : State) : Outcome Bool (Option R × State) :=
  match basic_resolver, fast_resolver with
  | some basic, some fast =>
    match basic.modules_.find? (fun e => e.1 == moduleid) with
    | none => Outcome.returned false (fast_resolver, s)
    | some iter =>
      match self.SerializeModuleAndLoadIntoFastResolver ops iter fast s with
      | Outcome.bad_alloc st => Outcome.bad_alloc (some st.1, st.2)
      | Outcome.returned b st => Outcome.returned b (some st.1, st.2)
  | _, _ => Outcome.returned false (fast_resolver, s)

/-! ## Reference descriptions of the layout -/

/-- Copy `bytes` to the position `st.2` of memory `st.1` and advance. -/
def put (bytes : List Nat) (st : Mem × Nat) : Mem × Nat :=
  (memcpy st.1 st.2 bytes, st.2 + bytes.length)

/-- The section payloads of a module in the fixed order: files, functions, public
symbols, the `STACK_INFO_LAST` windows-frame-info maps, CFI initial rules, CFI
delta rules, inline origins. -/
def ModuleSerializer.section_payloads {T : MapTypes} (self : ModuleSerializer T)
    (module : Module T) : List (List Nat) :=
  [self.files_serializer_.encode module.files_,
   self.functions_serializer_.encode module.functions_,
   self.pubsym_serializer_.encode module.public_symbols_]
  ++ (List.range self.STACK_INFO_LAST).map
      (fun i => self.wfi_serializer_.encode (module.windows_frame_info_ i))
  ++ [self.cfi_init_rules_serializer_.encode module.cfi_initial_rules_,
      self.cfi_delta_rules_serializer_.encode module.cfi_delta_rules_,
      self.inline_origin_serializer_.encode module.inline_origins_]

/-- The codec sizes of the sections of a module, in the same fixed order. -/
def ModuleSerializer.section_sizes {T : MapTypes} (self : ModuleSerializer T)
    (module : Module T) : List Nat :=
  [self.files_serializer_.SizeOf module.files_,
   self.functions_serializer_.SizeOf module.functions_,
   self.pubsym_serializer_.SizeOf module.public_symbols_]
  ++ (List.range self.STACK_INFO_LAST).map
      (fun i => self.wfi_serializer_.SizeOf (module.windows_frame_info_ i))
  ++ [self.cfi_init_rules_serializer_.SizeOf module.cfi_initial_rules_,
      self.cfi_delta_rules_serializer_.SizeOf module.cfi_delta_rules_,
      self.inline_origin_serializer_.SizeOf module.inline_origins_]

/-- The layout of the serialized buffer: flag, header of the recorded section
sizes, section payloads, sentinel. -/
def ModuleSerializer.image {T : MapTypes} (self : ModuleSerializer T)
    (map_sizes_ : MapSizes) (module : Module T) : List Nat :=
  self.bool_serializer.encode module.is_corrupt_
  ++ header_bytes map_sizes_ self.kNumberMaps_
  ++ (self.section_payloads module).flatten
  ++ self.char_serializer.encode 0

/-- The seven section codecs advance by their SizeOf. -/
def ModuleSerializer.SectionsConsistent {T : MapTypes} (self : ModuleSerializer T) : Prop :=
  self.files_serializer_.Consistent ∧ self.functions_serializer_.Consistent ∧
  self.pubsym_serializer_.Consistent ∧ self.wfi_serializer_.Consistent ∧
  self.cfi_init_rules_serializer_.Consistent ∧ self.cfi_delta_rules_serializer_.Consistent ∧
  self.inline_origin_serializer_.Consistent

/-- The two scalar codecs (bool and char) advance by their SizeOf. -/
def ModuleSerializer.ScalarsConsistent {T : MapTypes} (self : ModuleSerializer T) : Prop :=
  self.bool_serializer.Consistent ∧ self.char_serializer.Consistent

/-- The size table after the size pass for a module: the section sizes at the
indices below `6 + STACK_INFO_LAST`, the former content elsewhere. -/
def ModuleSerializer.recorded_sizes {T : MapTypes} (self : ModuleSerializer T)
    (map_sizes_ : MapSizes) (module : Module T) : MapSizes :=
  fun j => if j < 6 + self.STACK_INFO_LAST then (self.section_sizes module).getD j 0
    else map_sizes_ j

/-- The calls `ConvertOneModule(id, basic_resolver, fast_resolver)` for the ids
of a list, one after the other as statements of a program: the bool of each call
is dropped, and an exception that leaves a call leaves the sequence. -/
def ModuleSerializer.single_calls {T : MapTypes} {R : Type}
    (self : ModuleSerializer T) (ops : FastSourceLineResolver R)
    (basic : BasicSourceLineResolver T) :
    List String → Option R → State → Outcome Unit (Option R × State)
  | [], fast_resolver, s => Outcome.returned () (fast_resolver, s)
  | moduleid :: rest, fast_resolver, s =>
    match self.ConvertOneModule ops moduleid (some basic) fast_resolver s with
    | Outcome.bad_alloc st => Outcome.bad_alloc st
    | Outcome.returned _ st => single_calls self ops basic rest st.1 st.2

/-! ## Concrete instances -/

/-- Sample section types: every container is given by a list of numbers. -/
def demo_types : MapTypes := ⟨List Nat, List Nat, List Nat, List Nat, List Nat, List Nat, List Nat⟩

/-- Sample section codec: an entry count byte followed by the entries. -/
def demo_map_serializer : Serializer (List Nat) :=
  { SizeOf := fun v => 1 + v.length, encode := fun v => v.length :: v }

/-- Sample section codec whose SizeOf announces one byte more than its Write emits. -/
def padded_map_serializer : Serializer (List Nat) :=
  { SizeOf := fun v => 2 + v.length, encode := fun v => v.length :: v }

/-- Sample bool codec: one byte. -/
def demo_bool_serializer : Serializer Bool :=
  { SizeOf := fun _ => 1, encode := fun b => [b.toNat] }

/-- Sample char codec: one byte, the char itself. -/
def demo_char_serializer : Serializer Nat :=
  { SizeOf := fun _ => 1, encode := fun c => [c] }

/-- Sample serializer with consistent codecs, `STACK_INFO_LAST = 5` and
`kNumberMaps_ = 11`. -/
def demo : ModuleSerializer demo_types :=
  { STACK_INFO_LAST := 5, kNumberMaps_ := 11,
    bool_serializer := demo_bool_serializer, char_serializer := demo_char_serializer,
    files_serializer_ := demo_map_serializer, functions_serializer_ := demo_map_serializer,
    pubsym_serializer_ := demo_map_serializer, wfi_serializer_ := demo_map_serializer,
    cfi_init_rules_serializer_ := demo_map_serializer,
    cfi_delta_rules_serializer_ := demo_map_serializer,
    inline_origin_serializer_ := demo_map_serializer }

/-- Sample serializer whose files codec writes one byte less than its SizeOf. -/
def demo_padded : ModuleSerializer demo_types :=
  { demo with files_serializer_ := padded_map_serializer }

/-- Sample section codec announcing `2 ^ 63` bytes for every value. -/
def wide_map_serializer : Serializer (List Nat) :=
  { SizeOf := fun _ => 2 ^ 63, encode := fun v => v.length :: v }

/-- Sample serializer whose files and functions codecs each announce `2 ^ 63`
bytes, so that the sum of the section sizes exceeds `2 ^ 64`. -/
def demo_wide : ModuleSerializer demo_types :=
  { demo with files_serializer_ := wide_map_serializer,
              functions_serializer_ := wide_map_serializer }

/-- Sample module: one file entry, one function entry, everything else empty. -/
def demo_module : Module demo_types :=
  { name_ := "a.out", is_corrupt_ := false, files_ := [1, 97], functions_ := [16, 16, 10],
    public_symbols_ := [], windows_frame_info_ := fun _ => [], cfi_initial_rules_ := [],
    cfi_delta_rules_ := [], inline_origins_ := [] }

/-- Second sample module. -/
def demo_module2 : Module demo_types :=
  { name_ := "b.so", is_corrupt_ := true, files_ := [], functions_ := [],
    public_symbols_ := [7], windows_frame_info_ := fun _ => [], cfi_initial_rules_ := [],
    cfi_delta_rules_ := [], inline_origins_ := [] }

/-- Sample state: empty table and memory, every allocation yields address 4096. -/
def demo_state : State :=
  { map_sizes_ := fun _ => 0, mem := fun _ => 0, new_results := fun _ => some 4096, log := [] }

/-- Sample state in which the next allocation fails. -/
def demo_state_no_memory : State :=
  { map_sizes_ := fun _ => 0, mem := fun _ => 0, new_results := fun _ => none, log := [] }

/-- Sample state in which the first allocation fails and the later ones succeed. -/
def demo_state_first_fails : State :=
  { map_sizes_ := fun _ => 7, mem := fun _ => 255,
    new_results := fun k => if k = 0 then none else some 8192, log := [] }

/-- Sample source database with two modules. -/
def demo_db : BasicSourceLineResolver demo_types :=
  { modules_ := [("a.out", demo_module), ("b.so", demo_module2)] }

/-- Sample consumer that accepts every buffer and keeps no state. -/
def accepting_resolver : FastSourceLineResolver Unit :=
  { LoadModuleUsingMapBuffer := fun r _ _ => (true, r) }

/-- Sample consumer that rejects every buffer and keeps no state. -/
def rejecting_resolver : FastSourceLineResolver Unit :=
  { LoadModuleUsingMapBuffer := fun r _ _ => (false, r) }

/-- Sample consumer that records every (module id, buffer) it is given. -/
def recording_resolver : FastSourceLineResolver (List (String × List Nat)) :=
  { LoadModuleUsingMapBuffer := fun r m b => (true, r ++ [(m.code_file, b)]) }

/-! ## Memory lemmas -/

theorem memcpy_nil (mem : Mem) (d : Nat) : memcpy mem d [] = mem := by
  funext a; simp [memcpy]

theorem memcpy_append (mem : Mem) (d : Nat) (b1 b2 : List Nat) :
    memcpy (memcpy mem d b1) (d + b1.length) b2 = memcpy mem d (b1 ++ b2) := by
  funext a
  simp only [memcpy, List.length_append]
  by_cases h2 : d + b1.length ≤ a ∧ a - (d + b1.length) < b2.length
  · have h : d ≤ a ∧ a - d < b1.length + b2.length := by omega
    rw [if_pos h2, if_pos h]
    have e : a - d = b1.length + (a - (d + b1.length)) := by omega
    rw [e, List.getD_eq_getElem?_getD, List.getD_eq_getElem?_getD,
      List.getElem?_append_right (by omega)]
    congr 2
    omega
  · rw [if_neg h2]
    by_cases h1 : d ≤ a ∧ a - d < b1.length
    · have h : d ≤ a ∧ a - d < b1.length + b2.length := by omega
      rw [if_pos h1, if_pos h, List.getD_eq_getElem?_getD, List.getD_eq_getElem?_getD,
        List.getElem?_append_left h1.2]
    · have h : ¬ (d ≤ a ∧ a - d < b1.length + b2.length) := by omega
      rw [if_neg h1, if_neg h]

theorem put_put (b1 b2 : List Nat) (st : Mem × Nat) :
    put b2 (put b1 st) = put (b1 ++ b2) st := by
  simp [put, memcpy_append, Nat.add_assoc]

theorem Serializer.codec_Write_eq_put {α : Type} (c : Serializer α) (v : α) (st : Mem × Nat) :
    c.Write v st = put (c.encode v) st := rfl

theorem Serializer.consistent_iff {α : Type} (c : Serializer α) :
    c.Consistent ↔ ∀ v, (c.encode v).length = c.SizeOf v := by
  constructor
  · intro h v
    have := h v ((fun _ => 0), 0)
    simpa [Serializer.Write] using this
  · intro h v st
    simp [Serializer.Write, h v]

/-- Reading back a middle part of what `memcpy` stored. -/
theorem readBytes_memcpy_mid (mem : Mem) (d : Nat) (pre mid post : List Nat) :
    readBytes (memcpy mem d (pre ++ mid ++ post)) (d + pre.length) mid.length = mid := by
  apply List.ext_getElem
  · simp [readBytes]
  · intro i h1 h2
    simp only [readBytes, List.getElem_map, List.getElem_range, memcpy]
    have h : d ≤ d + pre.length + i ∧
        d + pre.length + i - d < (pre ++ mid ++ post).length := by
      simp only [List.length_append]; omega
    rw [if_pos h]
    have e : d + pre.length + i - d = pre.length + i := by omega
    rw [e, List.getD_eq_getElem?_getD, List.append_assoc,
      List.getElem?_append_right (by omega)]
    simp [List.getElem?_append_left h2, List.getElem?_eq_getElem h2]

theorem readBytes_memcpy (mem : Mem) (d : Nat) (bs : List Nat) :
    readBytes (memcpy mem d bs) d bs.length = bs := by
  have := readBytes_memcpy_mid mem d [] bs []
  simpa using this

theorem uint64_bytes_length (v : Nat) : (uint64_bytes v).length = 8 := by
  simp [uint64_bytes]

theorem header_bytes_length (ms : MapSizes) (n : Nat) : (header_bytes ms n).length = n * 8 := by
  induction n with
  | zero => simp [header_bytes]
  | succ n ih =>
    simp only [header_bytes] at ih ⊢
    rw [List.range_succ, List.flatMap_append, List.length_append, ih]
    simp [uint64_bytes_length]
    omega

/-! ## The write pass as one copy of the layout -/

theorem put_loop (g : Nat → List Nat) (n : Nat) (st : Mem × Nat) :
    (List.range n).foldl (fun st i => put (g i) st) st
      = put ((List.range n).flatMap g) st := by
  induction n with
  | zero => simp [put, memcpy_nil]
  | succ n ih =>
    rw [List.range_succ, List.foldl_append, ih, List.flatMap_append]
    simp [put_put]

theorem ModuleSerializer.section_payloads_flatten {T : MapTypes} (self : ModuleSerializer T)
    (module : Module T) :
    (self.section_payloads module).flatten
      = self.files_serializer_.encode module.files_
        ++ self.functions_serializer_.encode module.functions_
        ++ self.pubsym_serializer_.encode module.public_symbols_
        ++ (List.range self.STACK_INFO_LAST).flatMap
            (fun i => self.wfi_serializer_.encode (module.windows_frame_info_ i))
        ++ self.cfi_init_rules_serializer_.encode module.cfi_initial_rules_
        ++ self.cfi_delta_rules_serializer_.encode module.cfi_delta_rules_
        ++ self.inline_origin_serializer_.encode module.inline_origins_ := by
  simp [ModuleSerializer.section_payloads, List.flatMap, List.append_assoc]

/-- The write pass stores the layout `image` at `dest` and returns the position
after it. -/
theorem ModuleSerializer.Write_eq_put {T : MapTypes} (self : ModuleSerializer T)
    (ms : MapSizes) (module : Module T) (mem : Mem) (dest : Nat) :
    self.Write ms module mem dest = put (self.image ms module) (mem, dest) := by
  have hh : ∀ st : Mem × Nat,
      ((memcpy st.1 st.2 (header_bytes ms self.kNumberMaps_), st.2 + self.kNumberMaps_ * 8)
        : Mem × Nat) = put (header_bytes ms self.kNumberMaps_) st := by
    intro st; simp [put, header_bytes_length]
  simp only [ModuleSerializer.Write, hh, Serializer.codec_Write_eq_put, put_loop, put_put,
    ModuleSerializer.image, ModuleSerializer.section_payloads_flatten, List.append_assoc]

/-! ## The size pass -/

theorem MapSizes.set_apply (ms : MapSizes) (i v j : Nat) :
    (ms.set i v) j = if j = i then v else ms j := rfl

theorem size_loop (f : Nat → Nat) (n : Nat) (ms : MapSizes) (k : Nat) :
    (List.range n).foldl
        (fun (acc : MapSizes × Nat) i => (acc.1.set acc.2 (f i), acc.2 + 1)) (ms, k)
      = ((fun j => if k ≤ j ∧ j < k + n then f (j - k) else ms j), k + n) := by
  induction n with
  | zero =>
    simp only [List.range_zero, List.foldl_nil, Nat.add_zero]
    congr 1
    funext j
    have : ¬ (k ≤ j ∧ j < k) := by omega
    simp [this]
  | succ n ih =>
    rw [List.range_succ, List.foldl_append, ih]
    simp only [List.foldl_cons, List.foldl_nil]
    congr 1
    funext j
    rw [MapSizes.set_apply]
    by_cases h : j = k + n
    · subst h
      have : k ≤ k + n ∧ k + n < k + (n + 1) := by omega
      simp [this]
    · by_cases h2 : k ≤ j ∧ j < k + n
      · have : k ≤ j ∧ j < k + (n + 1) := by omega
        simp [h, h2, this]
      · have : ¬ (k ≤ j ∧ j < k + (n + 1)) := by omega
        simp [h, h2, this]

/-- Indexing a list of the shape three entries, a middle part, three entries. -/
theorem getD_sections {α : Type} (a b c d e f : α) (mid : List α) (dflt : α) :
    ([a, b, c] ++ mid ++ [d, e, f]).getD 0 dflt = a ∧
    ([a, b, c] ++ mid ++ [d, e, f]).getD 1 dflt = b ∧
    ([a, b, c] ++ mid ++ [d, e, f]).getD 2 dflt = c ∧
    (∀ i, i < mid.length → ([a, b, c] ++ mid ++ [d, e, f]).getD (3 + i) dflt = mid.getD i dflt) ∧
    ([a, b, c] ++ mid ++ [d, e, f]).getD (3 + mid.length) dflt = d ∧
    ([a, b, c] ++ mid ++ [d, e, f]).getD (4 + mid.length) dflt = e ∧
    ([a, b, c] ++ mid ++ [d, e, f]).getD (5 + mid.length) dflt = f := by
  refine ⟨by simp, by simp, by simp, ?_, ?_, ?_, ?_⟩
  · intro i hi
    rw [List.getD_eq_getElem?_getD, List.getD_eq_getElem?_getD, List.append_assoc,
      List.getElem?_append_right (by simp), List.getElem?_append_left (by simpa using hi)]
    simp
  · rw [List.getD_eq_getElem?_getD, List.getElem?_append_right (by simp; omega)]
    have : 3 + mid.length - ([a, b, c] ++ mid).length = 0 := by simp; omega
    rw [this]; simp
  · rw [List.getD_eq_getElem?_getD, List.getElem?_append_right (by simp; omega)]
    have : 4 + mid.length - ([a, b, c] ++ mid).length = 1 := by simp; omega
    rw [this]; simp
  · rw [List.getD_eq_getElem?_getD, List.getElem?_append_right (by simp; omega)]
    have : 5 + mid.length - ([a, b, c] ++ mid).length = 2 := by simp; omega
    rw [this]; simp

theorem ModuleSerializer.section_sizes_length {T : MapTypes} (self : ModuleSerializer T)
    (module : Module T) : (self.section_sizes module).length = 6 + self.STACK_INFO_LAST := by
  simp [ModuleSerializer.section_sizes]; omega

theorem ModuleSerializer.section_payloads_length {T : MapTypes} (self : ModuleSerializer T)
    (module : Module T) : (self.section_payloads module).length = 6 + self.STACK_INFO_LAST := by
  simp [ModuleSerializer.section_payloads]; omega

/-- The size pass leaves `recorded_sizes` in the table. -/
theorem ModuleSerializer.SizeOf_table {T : MapTypes} (self : ModuleSerializer T)
    (ms : MapSizes) (module : Module T) :
    (self.SizeOf ms module).2 = self.recorded_sizes ms module := by
  funext j
  simp only [ModuleSerializer.SizeOf, size_loop, ModuleSerializer.recorded_sizes,
    MapSizes.set_apply, ModuleSerializer.section_sizes]
  obtain ⟨g0, g1, g2, g3, g4, g5, g6⟩ := getD_sections
    (self.files_serializer_.SizeOf module.files_)
    (self.functions_serializer_.SizeOf module.functions_)
    (self.pubsym_serializer_.SizeOf module.public_symbols_)
    (self.cfi_init_rules_serializer_.SizeOf module.cfi_initial_rules_)
    (self.cfi_delta_rules_serializer_.SizeOf module.cfi_delta_rules_)
    (self.inline_origin_serializer_.SizeOf module.inline_origins_)
    ((List.range self.STACK_INFO_LAST).map
      (fun i => self.wfi_serializer_.SizeOf (module.windows_frame_info_ i))) 0
  simp only [List.length_map, List.length_range] at g3 g4 g5 g6
  by_cases h0 : j = 0
  · subst h0
    rw [g0]
    simp (disch := omega) only [if_pos, if_neg, if_true, if_false]
  by_cases h1 : j = 1
  · subst h1
    rw [g1]
    simp (disch := omega) only [if_pos, if_neg, if_true, if_false]
  by_cases h2 : j = 2
  · subst h2
    rw [g2]
    simp (disch := omega) only [if_pos, if_neg, if_true, if_false]
  by_cases h3 : j < 3 + self.STACK_INFO_LAST
  · obtain ⟨i, rfl⟩ : ∃ i, j = 3 + i := ⟨j - 3, by omega⟩
    have hi : i < self.STACK_INFO_LAST := by omega
    rw [g3 i hi]
    simp (disch := omega) only [if_pos, if_neg, if_true, if_false]
    have : 3 + i - (0 + 1 + 1 + 1) = i := by omega
    rw [this, List.getD_eq_getElem?_getD]
    simp [hi]
  by_cases h4 : j = 3 + self.STACK_INFO_LAST
  · subst h4
    rw [g4]
    simp (disch := omega) only [if_pos, if_neg, if_true, if_false]
  by_cases h5 : j = 4 + self.STACK_INFO_LAST
  · subst h5
    rw [g5]
    simp (disch := omega) only [if_pos, if_neg, if_true, if_false]
  by_cases h6 : j = 5 + self.STACK_INFO_LAST
  · subst h6
    rw [g6]
    simp (disch := omega) only [if_pos, if_neg, if_true, if_false]
  simp (disch := omega) only [if_pos, if_neg, if_true, if_false]

theorem foldl_add_eq_sum (g : Nat → Nat) (l : List Nat) (t0 : Nat) :
    l.foldl (fun total i => total + g i) t0 = t0 + (l.map g).sum := by
  induction l generalizing t0 with
  | nil => simp
  | cons a l ih => simp [ih, Nat.add_assoc]

theorem map_getD_range {α : Type} (l : List α) (d : α) :
    (List.range l.length).map (fun j => l.getD j d) = l := by
  apply List.ext_getElem
  · simp
  · intro i h1 h2
    simp [List.getD_eq_getElem?_getD, List.getElem?_eq_getElem h2]

/-- The entries of `section_sizes` by index. -/
theorem ModuleSerializer.section_sizes_getD {T : MapTypes} (self : ModuleSerializer T)
    (module : Module T) :
    (self.section_sizes module).getD 0 0 = self.files_serializer_.SizeOf module.files_ ∧
    (self.section_sizes module).getD 1 0
      = self.functions_serializer_.SizeOf module.functions_ ∧
    (self.section_sizes module).getD 2 0
      = self.pubsym_serializer_.SizeOf module.public_symbols_ ∧
    (∀ i, i < self.STACK_INFO_LAST → (self.section_sizes module).getD (3 + i) 0
      = self.wfi_serializer_.SizeOf (module.windows_frame_info_ i)) ∧
    (self.section_sizes module).getD (3 + self.STACK_INFO_LAST) 0
      = self.cfi_init_rules_serializer_.SizeOf module.cfi_initial_rules_ ∧
    (self.section_sizes module).getD (4 + self.STACK_INFO_LAST) 0
      = self.cfi_delta_rules_serializer_.SizeOf module.cfi_delta_rules_ ∧
    (self.section_sizes module).getD (5 + self.STACK_INFO_LAST) 0
      = self.inline_origin_serializer_.SizeOf module.inline_origins_ := by
  obtain ⟨g0, g1, g2, g3, g4, g5, g6⟩ := getD_sections
    (self.files_serializer_.SizeOf module.files_)
    (self.functions_serializer_.SizeOf module.functions_)
    (self.pubsym_serializer_.SizeOf module.public_symbols_)
    (self.cfi_init_rules_serializer_.SizeOf module.cfi_initial_rules_)
    (self.cfi_delta_rules_serializer_.SizeOf module.cfi_delta_rules_)
    (self.inline_origin_serializer_.SizeOf module.inline_origins_)
    ((List.range self.STACK_INFO_LAST).map
      (fun i => self.wfi_serializer_.SizeOf (module.windows_frame_info_ i))) 0
  simp only [List.length_map, List.length_range] at g3 g4 g5 g6
  refine ⟨g0, g1, g2, ?_, g4, g5, g6⟩
  intro i hi
  rw [ModuleSerializer.section_sizes, g3 i hi, List.getD_eq_getElem?_getD]
  simp [hi]

/-- With `kNumberMaps_ = 6 + STACK_INFO_LAST` the recorded header entries are
exactly the section sizes. -/
theorem ModuleSerializer.recorded_sizes_range {T : MapTypes} (self : ModuleSerializer T)
    (hK : self.kNumberMaps_ = 6 + self.STACK_INFO_LAST) (ms : MapSizes) (module : Module T) :
    (List.range self.kNumberMaps_).map (self.recorded_sizes ms module)
      = self.section_sizes module := by
  have h := map_getD_range (self.section_sizes module) 0
  rw [self.section_sizes_length module, ← hK] at h
  rw [← h]
  apply List.map_congr_left
  intro j hj
  have : j < 6 + self.STACK_INFO_LAST := by
    rw [← hK]; exact List.mem_range.mp hj
  simp [ModuleSerializer.recorded_sizes, this]


theorem to_size_t_eq (n : Nat) : to_size_t n = n % 2 ^ 64 := rfl

theorem foldl_wrap_eq_sum (g : Nat → Nat) (l : List Nat) (t0 : Nat) :
    (l.foldl (fun total i => to_size_t (total + g i)) t0) % 2 ^ 64
      = (t0 + (l.map g).sum) % 2 ^ 64 := by
  induction l generalizing t0 with
  | nil => simp
  | cons a l ih =>
    rw [List.foldl_cons, ih, List.map_cons, List.sum_cons, to_size_t_eq]
    omega

/-- The total the size pass returns: the sum, in `size_t`, of the flag size,
the header size, the recorded table entries and the sentinel size. -/
theorem ModuleSerializer.SizeOf_total {T : MapTypes} (self : ModuleSerializer T)
    (ms : MapSizes) (module : Module T) :
    (self.SizeOf ms module).1
      = (self.bool_serializer.SizeOf module.is_corrupt_ + self.kNumberMaps_ * 8
        + ((List.range self.kNumberMaps_).map (self.recorded_sizes ms module)).sum
        + self.char_serializer.SizeOf 0) % 2 ^ 64 := by
  have h : (self.SizeOf ms module).1
      = to_size_t ((List.range self.kNumberMaps_).foldl
          (fun total i => to_size_t (total + (self.SizeOf ms module).2 i))
          (to_size_t (to_size_t (0 + self.bool_serializer.SizeOf module.is_corrupt_)
            + to_size_t (self.kNumberMaps_ * 8)))
        + self.char_serializer.SizeOf 0) := rfl
  have hf := foldl_wrap_eq_sum (self.SizeOf ms module).2 (List.range self.kNumberMaps_)
    (to_size_t (to_size_t (0 + self.bool_serializer.SizeOf module.is_corrupt_)
      + to_size_t (self.kNumberMaps_ * 8)))
  rw [self.SizeOf_table ms module] at h hf
  rw [h]
  simp only [to_size_t_eq] at hf ⊢
  omega

theorem ModuleSerializer.section_sizes_eq_lengths {T : MapTypes} (self : ModuleSerializer T)
    (hc : self.SectionsConsistent) (module : Module T) :
    self.section_sizes module = (self.section_payloads module).map List.length := by
  obtain ⟨h1, h2, h3, h4, h5, h6, h7⟩ := hc
  rw [Serializer.consistent_iff] at h1 h2 h3 h4 h5 h6 h7
  simp [ModuleSerializer.section_sizes, ModuleSerializer.section_payloads, h1, h2, h3, h4, h5,
    h6, h7]

theorem ModuleSerializer.image_length {T : MapTypes} (self : ModuleSerializer T)
    (ms : MapSizes) (module : Module T) :
    (self.image ms module).length
      = (self.bool_serializer.encode module.is_corrupt_).length + self.kNumberMaps_ * 8
        + ((self.section_payloads module).map List.length).sum
        + (self.char_serializer.encode 0).length := by
  simp [ModuleSerializer.image, header_bytes_length, List.length_flatten]
  omega

/-! ## Reading the buffer back -/

theorem readBytes_memcpy_part (mem : Mem) (d : Nat) (img pre mid post : List Nat) (a n : Nat)
    (himg : img = pre ++ mid ++ post) (ha : a = d + pre.length) (hn : n = mid.length) :
    readBytes (memcpy mem d img) a n = mid := by
  subst himg ha hn
  exact readBytes_memcpy_mid mem d pre mid post

theorem readBytes_one (mem : Mem) (a : Nat) : readBytes mem a 1 = [mem a] := by
  simp [readBytes, List.range_succ]

theorem header_bytes_succ (ms : MapSizes) (n : Nat) :
    header_bytes ms (n + 1) = header_bytes ms n ++ uint64_bytes (ms n) := by
  simp [header_bytes, List.range_succ, List.flatMap_append]

theorem header_bytes_split (ms : MapSizes) (n i : Nat) (hi : i < n) :
    ∃ post, header_bytes ms n = header_bytes ms i ++ uint64_bytes (ms i) ++ post := by
  induction n with
  | zero => omega
  | succ n ih =>
    by_cases h : i = n
    · subst h
      exact ⟨[], by simp [header_bytes_succ]⟩
    · obtain ⟨post, hp⟩ := ih (by omega)
      exact ⟨post ++ uint64_bytes (ms n), by rw [header_bytes_succ, hp]; simp⟩

theorem flatten_split {α : Type} (l : List (List α)) (i : Nat) (hi : i < l.length) :
    l.flatten = (l.take i).flatten ++ l.getD i [] ++ (l.drop (i + 1)).flatten := by
  have h := List.take_append_drop i l
  rw [List.drop_eq_getElem_cons hi] at h
  have e : l.getD i [] = l[i] := by
    simp [List.getD_eq_getElem?_getD, List.getElem?_eq_getElem hi]
  have h2 : l.flatten = (l.take i ++ l[i] :: l.drop (i + 1)).flatten := by rw [h]
  rw [e, h2, List.flatten_append, List.flatten_cons, List.append_assoc]

theorem range_eight : List.range 8 = [0, 1, 2, 3, 4, 5, 6, 7] := by decide

theorem uint64_digits (v : Nat) :
    v / 256 ^ 0 % 256 * 256 ^ 0 + (v / 256 ^ 1 % 256 * 256 ^ 1 + (v / 256 ^ 2 % 256 * 256 ^ 2
      + (v / 256 ^ 3 % 256 * 256 ^ 3 + (v / 256 ^ 4 % 256 * 256 ^ 4
      + (v / 256 ^ 5 % 256 * 256 ^ 5 + (v / 256 ^ 6 % 256 * 256 ^ 6
      + (v / 256 ^ 7 % 256 * 256 ^ 7 + 0))))))) = v % 2 ^ 64 := by
  norm_num
  omega

/-- The value of a stored `uint64_t` whose 8 bytes are the representation of `v`. -/
theorem read_uint64_of_bytes (mem : Mem) (a v : Nat)
    (h : readBytes mem a 8 = uint64_bytes v) : read_uint64 mem a = v % 2 ^ 64 := by
  simp only [readBytes, uint64_bytes, range_eight, List.map_cons, List.map_nil,
    List.cons.injEq, and_true] at h
  obtain ⟨h0, h1, h2, h3, h4, h5, h6, h7⟩ := h
  simp only [read_uint64, range_eight, List.map_cons, List.map_nil, List.sum_cons,
    List.sum_nil, h0, h1, h2, h3, h4, h5, h6, h7]
  exact uint64_digits v

/-! ## The size pass and the write pass agree -/

/-- The size the size pass computes is the length, in `size_t`, of the layout
the write pass stores. -/
theorem ModuleSerializer.SizeOf_eq_image_length {T : MapTypes}
    (self : ModuleSerializer T)
    (hK : self.kNumberMaps_ = 6 + self.STACK_INFO_LAST)
    (hsec : self.SectionsConsistent) (hsc : self.ScalarsConsistent)
    (ms ms' : MapSizes) (module : Module T) :
    (self.SizeOf ms module).1 = (self.image ms' module).length % 2 ^ 64 := by
  rw [self.SizeOf_total, self.recorded_sizes_range hK, self.section_sizes_eq_lengths hsec,
    self.image_length]
  obtain ⟨hb, hch⟩ := hsc
  rw [Serializer.consistent_iff] at hb hch
  rw [hb, hch]

/-- C1: with `kNumberMaps_ = 6 + STACK_INFO_LAST` and every codec (bool, char
and the seven section codecs) advancing by its own SizeOf, the write pass run
after the size pass returns `d + SizeOf(M)`: the number of bytes written equals
the computed size.  The size is a `size_t`: the equality of the number of bytes
and of the positions is that of 64-bit arithmetic, and it is the equality of
natural numbers whenever fewer than `2 ^ 64` bytes are written. -/
theorem ModuleSerializer.Write_returns_dest_plus_SizeOf {T : MapTypes}
    (self : ModuleSerializer T)
    (hK : self.kNumberMaps_ = 6 + self.STACK_INFO_LAST)
    (hsec : self.SectionsConsistent) (hsc : self.ScalarsConsistent)
    (ms : MapSizes) (module : Module T) (mem : Mem) (d : Nat) :
    to_size_t ((self.Write (self.SizeOf ms module).2 module mem d).2 - d)
        = (self.SizeOf ms module).1
    ∧ (self.Write (self.SizeOf ms module).2 module mem d).2 % 2 ^ 64
        = (d + (self.SizeOf ms module).1) % 2 ^ 64
    ∧ ((self.Write (self.SizeOf ms module).2 module mem d).2 - d < 2 ^ 64 →
        (self.Write (self.SizeOf ms module).2 module mem d).2
          = d + (self.SizeOf ms module).1) := by
  have hsize := self.SizeOf_eq_image_length hK hsec hsc ms (self.SizeOf ms module).2 module
  rw [self.Write_eq_put]
  simp only [put, to_size_t_eq]
  rw [hsize]
  refine ⟨?_, ?_, ?_⟩
  · rw [Nat.add_sub_cancel_left]
  · omega
  · intro hlt
    rw [Nat.add_sub_cancel_left] at hlt
    rw [Nat.mod_eq_of_lt hlt]

/-- C3: the size pass returns, as a `size_t` (modulo `2 ^ 64`, and exactly when
the sum is below `2 ^ 64`), 1 (flag) + 8 * kNumberMaps_ (header) + the sum of
the codec sizes of the sections + 1 (sentinel), and records each section size at
the section's index of the table.  The scalar sizes are those of a one-byte bool
and a one-byte char. -/
theorem ModuleSerializer.SizeOf_value_and_table {T : MapTypes} (self : ModuleSerializer T)
    (hK : self.kNumberMaps_ = 6 + self.STACK_INFO_LAST)
    (hflag : ∀ b, self.bool_serializer.SizeOf b = 1)
    (hchar : self.char_serializer.SizeOf 0 = 1)
    (ms : MapSizes) (module : Module T) :
    (self.SizeOf ms module).1
        = (1 + 8 * self.kNumberMaps_
          + (self.files_serializer_.SizeOf module.files_
            + self.functions_serializer_.SizeOf module.functions_
            + self.pubsym_serializer_.SizeOf module.public_symbols_
            + ((List.range self.STACK_INFO_LAST).map
                (fun i => self.wfi_serializer_.SizeOf (module.windows_frame_info_ i))).sum
            + self.cfi_init_rules_serializer_.SizeOf module.cfi_initial_rules_
            + self.cfi_delta_rules_serializer_.SizeOf module.cfi_delta_rules_
            + self.inline_origin_serializer_.SizeOf module.inline_origins_)
          + 1) % 2 ^ 64
    ∧ (1 + 8 * self.kNumberMaps_
          + (self.files_serializer_.SizeOf module.files_
            + self.functions_serializer_.SizeOf module.functions_
            + self.pubsym_serializer_.SizeOf module.public_symbols_
            + ((List.range self.STACK_INFO_LAST).map
                (fun i => self.wfi_serializer_.SizeOf (module.windows_frame_info_ i))).sum
            + self.cfi_init_rules_serializer_.SizeOf module.cfi_initial_rules_
            + self.cfi_delta_rules_serializer_.SizeOf module.cfi_delta_rules_
            + self.inline_origin_serializer_.SizeOf module.inline_origins_)
          + 1 < 2 ^ 64 →
        (self.SizeOf ms module).1
          = 1 + 8 * self.kNumberMaps_
            + (self.files_serializer_.SizeOf module.files_
              + self.functions_serializer_.SizeOf module.functions_
              + self.pubsym_serializer_.SizeOf module.public_symbols_
              + ((List.range self.STACK_INFO_LAST).map
                  (fun i => self.wfi_serializer_.SizeOf (module.windows_frame_info_ i))).sum
              + self.cfi_init_rules_serializer_.SizeOf module.cfi_initial_rules_
              + self.cfi_delta_rules_serializer_.SizeOf module.cfi_delta_rules_
              + self.inline_origin_serializer_.SizeOf module.inline_origins_)
            + 1)
    ∧ (self.SizeOf ms module).2 0 = self.files_serializer_.SizeOf module.files_
    ∧ (self.SizeOf ms module).2 1 = self.functions_serializer_.SizeOf module.functions_
    ∧ (self.SizeOf ms module).2 2 = self.pubsym_serializer_.SizeOf module.public_symbols_
    ∧ (∀ i, i < self.STACK_INFO_LAST →
        (self.SizeOf ms module).2 (3 + i)
          = self.wfi_serializer_.SizeOf (module.windows_frame_info_ i))
    ∧ (self.SizeOf ms module).2 (3 + self.STACK_INFO_LAST)
        = self.cfi_init_rules_serializer_.SizeOf module.cfi_initial_rules_
    ∧ (self.SizeOf ms module).2 (4 + self.STACK_INFO_LAST)
        = self.cfi_delta_rules_serializer_.SizeOf module.cfi_delta_rules_
    ∧ (self.SizeOf ms module).2 (5 + self.STACK_INFO_LAST)
        = self.inline_origin_serializer_.SizeOf module.inline_origins_ := by
  obtain ⟨g0, g1, g2, g3, g4, g5, g6⟩ := self.section_sizes_getD module
  have k0 : 0 < 6 + self.STACK_INFO_LAST := by omega
  have k1 : 1 < 6 + self.STACK_INFO_LAST := by omega
  have k2 : 2 < 6 + self.STACK_INFO_LAST := by omega
  have k4 : 3 + self.STACK_INFO_LAST < 6 + self.STACK_INFO_LAST := by omega
  have k5 : 4 + self.STACK_INFO_LAST < 6 + self.STACK_INFO_LAST := by omega
  have k6 : 5 + self.STACK_INFO_LAST < 6 + self.STACK_INFO_LAST := by omega
  have hsum : (self.SizeOf ms module).1
      = (1 + 8 * self.kNumberMaps_
          + (self.files_serializer_.SizeOf module.files_
            + self.functions_serializer_.SizeOf module.functions_
            + self.pubsym_serializer_.SizeOf module.public_symbols_
            + ((List.range self.STACK_INFO_LAST).map
                (fun i => self.wfi_serializer_.SizeOf (module.windows_frame_info_ i))).sum
            + self.cfi_init_rules_serializer_.SizeOf module.cfi_initial_rules_
            + self.cfi_delta_rules_serializer_.SizeOf module.cfi_delta_rules_
            + self.inline_origin_serializer_.SizeOf module.inline_origins_)
          + 1) % 2 ^ 64 := by
    rw [self.SizeOf_total, self.recorded_sizes_range hK, hflag, hchar]
    congr 1
    simp [ModuleSerializer.section_sizes]
    omega
  refine ⟨hsum, ?_, ?_, ?_, ?_, ?_, ?_, ?_, ?_⟩
  · intro hlt
    rw [hsum, Nat.mod_eq_of_lt hlt]
  · rw [self.SizeOf_table, ModuleSerializer.recorded_sizes, if_pos k0, g0]
  · rw [self.SizeOf_table, ModuleSerializer.recorded_sizes, if_pos k1, g1]
  · rw [self.SizeOf_table, ModuleSerializer.recorded_sizes, if_pos k2, g2]
  · intro i hi
    have k3 : 3 + i < 6 + self.STACK_INFO_LAST := by omega
    rw [self.SizeOf_table, ModuleSerializer.recorded_sizes, if_pos k3, g3 i hi]
  · rw [self.SizeOf_table, ModuleSerializer.recorded_sizes, if_pos k4, g4]
  · rw [self.SizeOf_table, ModuleSerializer.recorded_sizes, if_pos k5, g5]
  · rw [self.SizeOf_table, ModuleSerializer.recorded_sizes, if_pos k6, g6]

/-! ## The layout of the written buffer -/

/-- C4: the bytes the write pass produces are, in this order, the flag byte,
the `kNumberMaps_` recorded section sizes as 8-byte values, the section payloads
in the fixed order, and a final byte 0; so byte 0 is the flag, the header starts
at offset 1, the payloads at offset `1 + 8 * kNumberMaps_`, and the last byte is
the sentinel 0.  (The bool codec writes one byte, the char 0 is the byte 0.) -/
theorem ModuleSerializer.Write_layout {T : MapTypes} (self : ModuleSerializer T)
    (hflag : ∀ b st, (self.bool_serializer.Write b st).2 = st.2 + 1)
    (hchar : self.char_serializer.encode 0 = [0])
    (ms : MapSizes) (module : Module T) (mem : Mem) (d : Nat) :
    readBytes (self.Write ms module mem d).1 d ((self.Write ms module mem d).2 - d)
        = self.bool_serializer.encode module.is_corrupt_
          ++ header_bytes ms self.kNumberMaps_
          ++ (self.files_serializer_.encode module.files_
            ++ self.functions_serializer_.encode module.functions_
            ++ self.pubsym_serializer_.encode module.public_symbols_
            ++ (List.range self.STACK_INFO_LAST).flatMap
                (fun i => self.wfi_serializer_.encode (module.windows_frame_info_ i))
            ++ self.cfi_init_rules_serializer_.encode module.cfi_initial_rules_
            ++ self.cfi_delta_rules_serializer_.encode module.cfi_delta_rules_
            ++ self.inline_origin_serializer_.encode module.inline_origins_)
          ++ [0]
    ∧ [(self.Write ms module mem d).1 d] = self.bool_serializer.encode module.is_corrupt_
    ∧ readBytes (self.Write ms module mem d).1 (d + 1) (8 * self.kNumberMaps_)
        = header_bytes ms self.kNumberMaps_
    ∧ readBytes (self.Write ms module mem d).1 (d + 1 + 8 * self.kNumberMaps_)
          (self.section_payloads module).flatten.length
        = (self.section_payloads module).flatten
    ∧ (self.Write ms module mem d).1 ((self.Write ms module mem d).2 - 1) = 0
    ∧ (self.Write ms module mem d).2
        = d + 1 + 8 * self.kNumberMaps_ + (self.section_payloads module).flatten.length + 1 := by
  have hb : ∀ b, (self.bool_serializer.encode b).length = 1 := by
    intro b
    have := hflag b ((fun _ => 0), 0)
    simpa [Serializer.Write] using this
  have himg : self.image ms module
      = self.bool_serializer.encode module.is_corrupt_ ++ header_bytes ms self.kNumberMaps_
        ++ (self.section_payloads module).flatten ++ [0] := by
    rw [ModuleSerializer.image, hchar]
  have hlen : (self.image ms module).length
      = 1 + 8 * self.kNumberMaps_ + (self.section_payloads module).flatten.length + 1 := by
    rw [himg]
    simp only [List.length_append, hb, header_bytes_length, List.length_singleton]
    omega
  rw [self.Write_eq_put]
  simp only [put]
  refine ⟨?_, ?_, ?_, ?_, ?_, ?_⟩
  · rw [Nat.add_sub_cancel_left, readBytes_memcpy, himg, self.section_payloads_flatten]
  · rw [← readBytes_one]
    exact readBytes_memcpy_part mem d _ [] _
      (header_bytes ms self.kNumberMaps_ ++ (self.section_payloads module).flatten ++ [0])
      _ _ (by rw [himg]; simp) (by simp) (by rw [hb])
  · exact readBytes_memcpy_part mem d _ (self.bool_serializer.encode module.is_corrupt_) _
      ((self.section_payloads module).flatten ++ [0])
      _ _ (by rw [himg]; simp) (by rw [hb]) (by rw [header_bytes_length]; omega)
  · exact readBytes_memcpy_part mem d _
      (self.bool_serializer.encode module.is_corrupt_ ++ header_bytes ms self.kNumberMaps_) _
      [0] _ _ (by rw [himg]) (by simp [hb, header_bytes_length]; omega) rfl
  · have h := readBytes_memcpy_part mem d (self.image ms module)
      (self.bool_serializer.encode module.is_corrupt_ ++ header_bytes ms self.kNumberMaps_
        ++ (self.section_payloads module).flatten) [0] []
      (d + (self.image ms module).length - 1) 1 (by rw [himg]; simp)
      (by rw [hlen]; simp [hb, header_bytes_length]; omega) rfl
    rw [readBytes_one] at h
    simpa using h
  · rw [hlen]; omega

/-! ## The header describes the sections -/

theorem getD_map_length {α : Type} (l : List (List α)) (i : Nat) :
    (l.map List.length).getD i 0 = (l.getD i []).length := by
  simp only [List.getD_eq_getElem?_getD, List.getElem?_map]
  cases l[i]? <;> simp

/-- C2: after the size pass and the write pass, for every section index
`i < kNumberMaps_` the 8-byte header entry at offset `1 + 8 * i` is the number of
bytes the write pass emitted for section `i` (sections in the fixed order), and
those bytes are the ones found behind the header after the bytes of the sections
before `i`.  (The flag takes one byte; each section codec advances by its
SizeOf.) -/
theorem ModuleSerializer.header_entry_eq_section_length {T : MapTypes}
    (self : ModuleSerializer T)
    (hK : self.kNumberMaps_ = 6 + self.STACK_INFO_LAST)
    (hsec : self.SectionsConsistent)
    (hflag : ∀ b st, (self.bool_serializer.Write b st).2 = st.2 + 1)
    (ms : MapSizes) (module : Module T) (mem : Mem) (d i : Nat)
    (hi : i < self.kNumberMaps_) :
    readBytes (self.Write (self.SizeOf ms module).2 module mem d).1 (d + 1 + 8 * i) 8
        = uint64_bytes ((self.section_payloads module).getD i []).length
    ∧ (((self.section_payloads module).getD i []).length < 2 ^ 64 →
        read_uint64 (self.Write (self.SizeOf ms module).2 module mem d).1 (d + 1 + 8 * i)
          = ((self.section_payloads module).getD i []).length)
    ∧ readBytes (self.Write (self.SizeOf ms module).2 module mem d).1
          (d + 1 + 8 * self.kNumberMaps_
            + (((self.section_payloads module).take i).map List.length).sum)
          ((self.section_payloads module).getD i []).length
        = (self.section_payloads module).getD i [] := by
  have hb : ∀ b, (self.bool_serializer.encode b).length = 1 := by
    intro b
    have := hflag b ((fun _ => 0), 0)
    simpa [Serializer.Write] using this
  have hentry : (self.SizeOf ms module).2 i
      = ((self.section_payloads module).getD i []).length := by
    have hi2 : i < 6 + self.STACK_INFO_LAST := by omega
    rw [self.SizeOf_table, ModuleSerializer.recorded_sizes, if_pos hi2,
      self.section_sizes_eq_lengths hsec, getD_map_length]
  have h1 : readBytes (self.Write (self.SizeOf ms module).2 module mem d).1 (d + 1 + 8 * i) 8
      = uint64_bytes ((self.section_payloads module).getD i []).length := by
    obtain ⟨post, hp⟩ := header_bytes_split (self.SizeOf ms module).2 self.kNumberMaps_ i hi
    rw [self.Write_eq_put, ← hentry]
    exact readBytes_memcpy_part mem d _
      (self.bool_serializer.encode module.is_corrupt_
        ++ header_bytes (self.SizeOf ms module).2 i) _
      (post ++ (self.section_payloads module).flatten ++ self.char_serializer.encode 0)
      _ _ (by rw [ModuleSerializer.image, hp]; simp)
      (by simp [hb, header_bytes_length]; omega) (by rw [uint64_bytes_length])
  refine ⟨h1, ?_, ?_⟩
  · intro hlt
    rw [read_uint64_of_bytes _ _ _ h1, Nat.mod_eq_of_lt hlt]
  · have hi3 : i < (self.section_payloads module).length := by
      rw [self.section_payloads_length]; omega
    rw [self.Write_eq_put]
    exact readBytes_memcpy_part mem d _
      (self.bool_serializer.encode module.is_corrupt_
        ++ header_bytes (self.SizeOf ms module).2 self.kNumberMaps_
        ++ ((self.section_payloads module).take i).flatten) _
      (((self.section_payloads module).drop (i + 1)).flatten ++ self.char_serializer.encode 0)
      _ _ (by rw [ModuleSerializer.image, flatten_split _ i hi3]; simp)
      (by simp [hb, header_bytes_length]; omega) rfl


/-! ## Serialize -/

theorem ModuleSerializer.Serialize_of_bad_alloc {T : MapTypes} (self : ModuleSerializer T)
    (module : Module T) (s : State) (h : s.new_results 0 = none) :
    self.Serialize module s
      = Outcome.bad_alloc
          { map_sizes_ := (self.SizeOf s.map_sizes_ module).2, mem := s.mem,
            new_results := fun k => s.new_results (k + 1), log := s.log } := by
  simp only [ModuleSerializer.Serialize, h]

theorem ModuleSerializer.Serialize_of_block {T : MapTypes} (self : ModuleSerializer T)
    (module : Module T) (s : State) (p : Nat) (h : s.new_results 0 = some p) :
    self.Serialize module s
      = Outcome.returned (some p, (self.SizeOf s.map_sizes_ module).1)
          { map_sizes_ := (self.SizeOf s.map_sizes_ module).2,
            mem := (self.Write (self.SizeOf s.map_sizes_ module).2 module s.mem p).1,
            new_results := fun k => s.new_results (k + 1),
            log :=
              if (self.SizeOf s.map_sizes_ module).1
                  ≠ to_size_t
                      ((self.Write (self.SizeOf s.map_sizes_ module).2 module s.mem p).2 - p) then
                s.log ++ [LogEntry.size_differs (self.SizeOf s.map_sizes_ module).1
                  (to_size_t
                    ((self.Write (self.SizeOf s.map_sizes_ module).2 module s.mem p).2 - p))]
              else s.log } := by
  simp only [ModuleSerializer.Serialize, h]

/-- C5, as the code behaves: whenever the allocation succeeds Serialize returns
the buffer and reports the computed size, whether or not the number of bytes
written equals it; a mismatch only adds an error message to the log. -/
theorem ModuleSerializer.Serialize_returns_buffer_on_mismatch {T : MapTypes}
    (self : ModuleSerializer T) (module : Module T) (s : State) (p : Nat)
    (h : s.new_results 0 = some p) :
    (self.Serialize module s).value? = some (some p, (self.SizeOf s.map_sizes_ module).1)
    ∧ ((self.SizeOf s.map_sizes_ module).1
          ≠ to_size_t
              ((self.Write (self.SizeOf s.map_sizes_ module).2 module s.mem p).2 - p) →
        (self.Serialize module s).state.log
          = s.log ++ [LogEntry.size_differs (self.SizeOf s.map_sizes_ module).1
              (to_size_t
                ((self.Write (self.SizeOf s.map_sizes_ module).2 module s.mem p).2 - p))])
    ∧ ((self.SizeOf s.map_sizes_ module).1
          = to_size_t
              ((self.Write (self.SizeOf s.map_sizes_ module).2 module s.mem p).2 - p) →
        (self.Serialize module s).state.log = s.log) := by
  rw [self.Serialize_of_block module s p h]
  refine ⟨rfl, ?_, ?_⟩
  · intro hne
    simp only [Outcome.state, hne, ne_eq, not_false_eq_true, if_true]
  · intro he
    simp only [Outcome.state, he, ne_eq, not_true_eq_false, if_false]

/-- C5 fails as stated: with a files codec that writes one byte less than its
SizeOf, the size pass gives 107 bytes, the write pass writes 106, and
Serialize still returns the buffer with the computed size. -/
theorem ModuleSerializer.Serialize_mismatch_not_failed :
    (demo_padded.SizeOf demo_state.map_sizes_ demo_module).1 = 107
    ∧ (demo_padded.Write (demo_padded.SizeOf demo_state.map_sizes_ demo_module).2
          demo_module demo_state.mem 4096).2 - 4096 = 106
    ∧ (demo_padded.Serialize demo_module demo_state).value? = some (some 4096, 107) := by
  refine ⟨by decide, by decide, by decide⟩

/-- C9, the code at the failing input: when the allocation for the sample
module cannot be satisfied, Serialize does not return at all (it is left by
`std::bad_alloc`), so it returns no null pointer and stores no size 0, and it
logs nothing; the branch that would log, store 0 and return the null pointer is
not reached.  Memory is untouched. -/
theorem ModuleSerializer.Serialize_throws_on_failed_allocation :
    demo_state_no_memory.new_results 0 = none
    ∧ (demo.Serialize demo_module demo_state_no_memory).value? = none
    ∧ (demo.Serialize demo_module demo_state_no_memory).value? ≠ some (none, 0)
    ∧ (demo.Serialize demo_module demo_state_no_memory).state.log = []
    ∧ (demo.Serialize demo_module demo_state_no_memory).state.mem = demo_state_no_memory.mem := by
  have h := demo.Serialize_of_bad_alloc demo_module demo_state_no_memory rfl
  rw [h]
  exact ⟨rfl, rfl, by simp [Outcome.value?], rfl, rfl⟩

/-! ## The conversion drivers -/

/-- C6: for a module id that is not a key of the source's module map,
ConvertOneModule returns false and leaves the consumer and the serializer state
(size table, memory, allocations, log) as they were: nothing was serialized and
the consumer was not called. -/
theorem ModuleSerializer.ConvertOneModule_unknown_id {T : MapTypes} {R : Type}
    (self : ModuleSerializer T) (ops : FastSourceLineResolver R) (moduleid : String)
    (basic : BasicSourceLineResolver T) (fast_resolver : Option R) (s : State)
    (h : ∀ e ∈ basic.modules_, e.1 ≠ moduleid) :
    self.ConvertOneModule ops moduleid (some basic) fast_resolver s
      = Outcome.returned false (fast_resolver, s) := by
  cases fast_resolver with
  | none => rfl
  | some fast =>
    have hf : basic.modules_.find? (fun e => e.1 == moduleid) = none := by
      rw [List.find?_eq_none]
      intro e he
      simpa using h e he
    simp only [ModuleSerializer.ConvertOneModule, hf]

/-- C10: with a null source or a null consumer, ConvertOneModule returns false
and ConvertAllModules returns, both leaving the consumer and the serializer
state as they were. -/
theorem ModuleSerializer.null_resolver_rejected {T : MapTypes} {R : Type}
    (self : ModuleSerializer T) (ops : FastSourceLineResolver R) (moduleid : String)
    (basic_resolver : Option (BasicSourceLineResolver T)) (fast_resolver : Option R)
    (s : State) (h : basic_resolver = none ∨ fast_resolver = none) :
    self.ConvertOneModule ops moduleid basic_resolver fast_resolver s
      = Outcome.returned false (fast_resolver, s)
    ∧ self.ConvertAllModules ops basic_resolver fast_resolver s
      = Outcome.returned () (fast_resolver, s) := by
  rcases h with h | h
  · subst h
    exact ⟨rfl, rfl⟩
  · subst h
    cases basic_resolver <;> exact ⟨rfl, rfl⟩

/-- C7, the code at the failing input: on the two-module database, when the
allocation for the first module cannot be satisfied, ConvertAllModules does not
return (it is left by `std::bad_alloc`); the second module is never converted,
the consumer has received nothing, and the allocation that would have served the
second module is still unused, although that module converts when taken alone. -/
theorem ModuleSerializer.ConvertAllModules_stops_at_failed_allocation :
    demo_state_first_fails.new_results 0 = none
    ∧ (demo.ConvertAllModules recording_resolver (some demo_db) (some [])
          demo_state_first_fails).value? = none
    ∧ (demo.ConvertAllModules recording_resolver (some demo_db) (some [])
          demo_state_first_fails).state.1 = some []
    ∧ (demo.ConvertAllModules recording_resolver (some demo_db) (some [])
          demo_state_first_fails).state.2.new_results 0 = some 8192
    ∧ (demo.ConvertAllModules recording_resolver (some demo_db) (some [])
          demo_state_first_fails).state.2.log = [LogEntry.converting "a.out"]
    ∧ (demo.ConvertOneModule recording_resolver "b.so" (some demo_db) (some [])
          demo_state).value? = some true := by
  refine ⟨rfl, by decide, by decide, by decide, by decide, by decide⟩

theorem find_of_mem_nodup {α : Type} (l : List (String × α))
    (hk : (l.map Prod.fst).Nodup) (e : String × α) (he : e ∈ l) :
    l.find? (fun x => x.1 == e.1) = some e := by
  induction l with
  | nil => cases he
  | cons a l ih =>
    rw [List.map_cons, List.nodup_cons] at hk
    rcases List.mem_cons.mp he with h | h
    · subst h
      simp [List.find?_cons]
    · have hne : a.1 ≠ e.1 := by
        intro heq
        apply hk.1
        rw [heq]
        exact List.mem_map_of_mem Prod.fst h
      have hb : (a.1 == e.1) = false := by simpa using hne
      rw [List.find?_cons, hb]
      exact ih hk.2 h

theorem ModuleSerializer.ConvertOneModule_of_entry {T : MapTypes} {R : Type}
    (self : ModuleSerializer T) (ops : FastSourceLineResolver R)
    (basic : BasicSourceLineResolver T) (hk : (basic.modules_.map Prod.fst).Nodup)
    (iter : String × Module T) (hi : iter ∈ basic.modules_) (fast : R) (s : State) :
    self.ConvertOneModule ops iter.1 (some basic) (some fast) s
      = match self.SerializeModuleAndLoadIntoFastResolver ops iter fast s with
        | Outcome.bad_alloc st => Outcome.bad_alloc (some st.1, st.2)
        | Outcome.returned b st => Outcome.returned b (some st.1, st.2) := by
  simp only [ModuleSerializer.ConvertOneModule, find_of_mem_nodup basic.modules_ hk iter hi]

theorem ModuleSerializer.traverse_as_single_calls {T : MapTypes} {R : Type}
    (self : ModuleSerializer T) (ops : FastSourceLineResolver R)
    (basic : BasicSourceLineResolver T) (hk : (basic.modules_.map Prod.fst).Nodup)
    (l : List (String × Module T)) (hl : ∀ e ∈ l, e ∈ basic.modules_) (fast : R) (s : State) :
    (match self.traverse ops l fast s with
      | Outcome.bad_alloc st => Outcome.bad_alloc (some st.1, st.2)
      | Outcome.returned _ st => Outcome.returned () (some st.1, st.2))
      = self.single_calls ops basic (l.map Prod.fst) (some fast) s := by
  induction l generalizing fast s with
  | nil => rfl
  | cons iter rest ih =>
    have h1 := self.ConvertOneModule_of_entry ops basic hk iter
      (hl iter (List.mem_cons_self _ _)) fast s
    rw [List.map_cons, ModuleSerializer.single_calls, h1, ModuleSerializer.traverse]
    cases h : self.SerializeModuleAndLoadIntoFastResolver ops iter fast s with
    | bad_alloc st => rfl
    | returned b st => exact ih (fun e he => hl e (List.mem_cons_of_mem _ he)) st.1 st.2

/-- C8, as the code behaves: ConvertAllModules returns nothing and records no
per-module result.  What it does to the consumer and to the serializer (size
table, memory, log) is what the calls of ConvertOneModule for the module ids of
the database, taken in map order one after the other, do, the bool each call
returns being dropped. -/
theorem ModuleSerializer.ConvertAllModules_eq_single_calls {T : MapTypes} {R : Type}
    (self : ModuleSerializer T) (ops : FastSourceLineResolver R)
    (basic : BasicSourceLineResolver T) (hk : (basic.modules_.map Prod.fst).Nodup)
    (fast : R) (s : State) :
    self.ConvertAllModules ops (some basic) (some fast) s
      = self.single_calls ops basic (basic.modules_.map Prod.fst) (some fast) s := by
  rw [← self.traverse_as_single_calls ops basic hk basic.modules_ (fun _ he => he) fast s]
  rfl

/-- C8 fails as stated: what ConvertAllModules leaves behind does not determine
the per-module outcomes.  For the two-module database the batch ends in the same
state with a consumer that accepts every buffer and with one that rejects every
buffer, while ConvertOneModule returns true in the first case and false in the
second. -/
theorem ModuleSerializer.ConvertAllModules_records_no_result :
    ¬ ∃ results : Outcome Unit (Option Unit × State) → List (Option Bool),
        ∀ ops : FastSourceLineResolver Unit,
          results (demo.ConvertAllModules ops (some demo_db) (some ()) demo_state)
            = demo_db.modules_.map (fun e =>
                (demo.ConvertOneModule ops e.1 (some demo_db) (some ()) demo_state).value?) := by
  rintro ⟨results, h⟩
  have ha := h accepting_resolver
  have hr := h rejecting_resolver
  have e : demo.ConvertAllModules accepting_resolver (some demo_db) (some ()) demo_state
      = demo.ConvertAllModules rejecting_resolver (some demo_db) (some ()) demo_state := rfl
  have va : demo_db.modules_.map (fun e =>
      (demo.ConvertOneModule accepting_resolver e.1 (some demo_db) (some ())
        demo_state).value?)
      = [some true, some true] := by decide
  have vr : demo_db.modules_.map (fun e =>
      (demo.ConvertOneModule rejecting_resolver e.1 (some demo_db) (some ())
        demo_state).value?)
      = [some false, some false] := by decide
  rw [e, hr, vr] at ha
  rw [va] at ha
  exact absurd ha (by decide)


/-! ## The theorems at the sample serializer -/

theorem demo_map_serializer_consistent : demo_map_serializer.Consistent := by
  intro v st
  simp only [Serializer.Write, demo_map_serializer, List.length_cons]
  omega

theorem demo_sections_consistent : demo.SectionsConsistent :=
  ⟨demo_map_serializer_consistent, demo_map_serializer_consistent,
    demo_map_serializer_consistent, demo_map_serializer_consistent,
    demo_map_serializer_consistent, demo_map_serializer_consistent,
    demo_map_serializer_consistent⟩

theorem demo_scalars_consistent : demo.ScalarsConsistent :=
  ⟨fun _ _ => rfl, fun _ _ => rfl⟩

/-- The sample serializer meets the hypotheses; for the sample module both
passes give 106 bytes. -/
theorem ModuleSerializer.Write_returns_dest_plus_SizeOf_witness :
    demo.kNumberMaps_ = 6 + demo.STACK_INFO_LAST ∧ demo.SectionsConsistent
    ∧ demo.ScalarsConsistent
    ∧ (to_size_t ((demo.Write (demo.SizeOf demo_state.map_sizes_ demo_module).2 demo_module
            demo_state.mem 4096).2 - 4096)
          = (demo.SizeOf demo_state.map_sizes_ demo_module).1
        ∧ (demo.Write (demo.SizeOf demo_state.map_sizes_ demo_module).2 demo_module
            demo_state.mem 4096).2 % 2 ^ 64
          = (4096 + (demo.SizeOf demo_state.map_sizes_ demo_module).1) % 2 ^ 64
        ∧ ((demo.Write (demo.SizeOf demo_state.map_sizes_ demo_module).2 demo_module
              demo_state.mem 4096).2 - 4096 < 2 ^ 64 →
            (demo.Write (demo.SizeOf demo_state.map_sizes_ demo_module).2 demo_module
              demo_state.mem 4096).2
              = 4096 + (demo.SizeOf demo_state.map_sizes_ demo_module).1))
    ∧ (demo.Write (demo.SizeOf demo_state.map_sizes_ demo_module).2 demo_module
          demo_state.mem 4096).2 - 4096 < 2 ^ 64
    ∧ (demo.SizeOf demo_state.map_sizes_ demo_module).1 = 106 :=
  ⟨rfl, demo_sections_consistent, demo_scalars_consistent,
    demo.Write_returns_dest_plus_SizeOf rfl demo_sections_consistent demo_scalars_consistent
      demo_state.map_sizes_ demo_module demo_state.mem 4096,
    by decide, by decide⟩

theorem ModuleSerializer.header_entry_eq_section_length_witness :
    demo.kNumberMaps_ = 6 + demo.STACK_INFO_LAST ∧ demo.SectionsConsistent
    ∧ (∀ b st, (demo.bool_serializer.Write b st).2 = st.2 + 1)
    ∧ 1 < demo.kNumberMaps_
    ∧ (readBytes (demo.Write (demo.SizeOf demo_state.map_sizes_ demo_module).2 demo_module
            demo_state.mem 4096).1 (4096 + 1 + 8 * 1) 8
          = uint64_bytes ((demo.section_payloads demo_module).getD 1 []).length
        ∧ (((demo.section_payloads demo_module).getD 1 []).length < 2 ^ 64 →
            read_uint64 (demo.Write (demo.SizeOf demo_state.map_sizes_ demo_module).2
                demo_module demo_state.mem 4096).1 (4096 + 1 + 8 * 1)
              = ((demo.section_payloads demo_module).getD 1 []).length)
        ∧ readBytes (demo.Write (demo.SizeOf demo_state.map_sizes_ demo_module).2 demo_module
              demo_state.mem 4096).1
            (4096 + 1 + 8 * demo.kNumberMaps_
              + (((demo.section_payloads demo_module).take 1).map List.length).sum)
            ((demo.section_payloads demo_module).getD 1 []).length
          = (demo.section_payloads demo_module).getD 1 [])
    ∧ (demo.section_payloads demo_module).getD 1 [] = [3, 16, 16, 10] :=
  ⟨rfl, demo_sections_consistent, fun _ _ => rfl, by decide,
    demo.header_entry_eq_section_length rfl demo_sections_consistent (fun _ _ => rfl)
      demo_state.map_sizes_ demo_module demo_state.mem 4096 1 (by decide),
    by decide⟩

/-- The size of the sample module, and a size that wraps: with two section
codecs announcing `2 ^ 63` bytes each the size pass returns 99. -/
theorem ModuleSerializer.SizeOf_value_and_table_witness :
    demo.kNumberMaps_ = 6 + demo.STACK_INFO_LAST
    ∧ (∀ b, demo.bool_serializer.SizeOf b = 1) ∧ demo.char_serializer.SizeOf 0 = 1
    ∧ (demo.SizeOf demo_state.map_sizes_ demo_module).1 = (1 + 8 * 11 + 16 + 1) % 2 ^ 64
    ∧ (demo.SizeOf demo_state.map_sizes_ demo_module).1 = 106
    ∧ demo_wide.kNumberMaps_ = 6 + demo_wide.STACK_INFO_LAST
    ∧ (∀ b, demo_wide.bool_serializer.SizeOf b = 1) ∧ demo_wide.char_serializer.SizeOf 0 = 1
    ∧ (demo_wide.SizeOf demo_state.map_sizes_ demo_module).1
        = (1 + 8 * 11 + (2 ^ 63 + 2 ^ 63 + 9) + 1) % 2 ^ 64
    ∧ (demo_wide.SizeOf demo_state.map_sizes_ demo_module).1 = 99 :=
  ⟨rfl, fun _ => rfl, rfl,
    (demo.SizeOf_value_and_table rfl (fun _ => rfl) rfl demo_state.map_sizes_ demo_module).1,
    by decide, rfl, fun _ => rfl, rfl,
    (demo_wide.SizeOf_value_and_table rfl (fun _ => rfl) rfl demo_state.map_sizes_
      demo_module).1,
    by decide⟩

theorem ModuleSerializer.Write_layout_witness :
    (∀ b st, (demo.bool_serializer.Write b st).2 = st.2 + 1)
    ∧ demo.char_serializer.encode 0 = [0]
    ∧ [(demo.Write demo_state.map_sizes_ demo_module demo_state.mem 4096).1 4096] = [0]
    ∧ (demo.Write demo_state.map_sizes_ demo_module demo_state.mem 4096).1
        ((demo.Write demo_state.map_sizes_ demo_module demo_state.mem 4096).2 - 1) = 0
    ∧ (demo.Write demo_state.map_sizes_ demo_module demo_state.mem 4096).2
        = 4096 + 1 + 8 * 11 + 16 + 1 :=
  ⟨fun _ _ => rfl, rfl,
    (demo.Write_layout (fun _ _ => rfl) rfl demo_state.map_sizes_ demo_module
      demo_state.mem 4096).2.1,
    (demo.Write_layout (fun _ _ => rfl) rfl demo_state.map_sizes_ demo_module
      demo_state.mem 4096).2.2.2.2.1,
    (demo.Write_layout (fun _ _ => rfl) rfl demo_state.map_sizes_ demo_module
      demo_state.mem 4096).2.2.2.2.2⟩

/-- With the padded files codec and a successful allocation the buffer is
returned with size 107 and the mismatch is logged. -/
theorem ModuleSerializer.Serialize_returns_buffer_on_mismatch_witness :
    demo_state.new_results 0 = some 4096
    ∧ (demo_padded.Serialize demo_module demo_state).value?
        = some (some 4096, (demo_padded.SizeOf demo_state.map_sizes_ demo_module).1)
    ∧ (demo_padded.Serialize demo_module demo_state).state.log
        = [LogEntry.size_differs 107 106] :=
  ⟨rfl, (demo_padded.Serialize_returns_buffer_on_mismatch demo_module demo_state 4096 rfl).1,
    by decide⟩

/-- The id "zz" is not in the sample database. -/
theorem ModuleSerializer.ConvertOneModule_unknown_id_witness :
    (∀ e ∈ demo_db.modules_, e.1 ≠ "zz")
    ∧ demo.ConvertOneModule recording_resolver "zz" (some demo_db) (some []) demo_state
        = Outcome.returned false (some [], demo_state) :=
  ⟨by
      intro e he
      simp only [demo_db, List.mem_cons, List.mem_singleton, List.not_mem_nil, or_false] at he
      rcases he with rfl | rfl <;> decide,
    demo.ConvertOneModule_unknown_id recording_resolver "zz" demo_db (some []) demo_state
      (by
        intro e he
        simp only [demo_db, List.mem_cons, List.mem_singleton, List.not_mem_nil, or_false] at he
        rcases he with rfl | rfl <;> decide)⟩

/-- The sample database has distinct module ids. -/
theorem ModuleSerializer.ConvertAllModules_eq_single_calls_witness :
    (demo_db.modules_.map Prod.fst).Nodup
    ∧ demo.ConvertAllModules recording_resolver (some demo_db) (some []) demo_state
        = demo.single_calls recording_resolver demo_db ["a.out", "b.so"] (some [])
            demo_state :=
  ⟨by decide,
    demo.ConvertAllModules_eq_single_calls recording_resolver demo_db (by decide) []
      demo_state⟩

/-- A null source with a live consumer. -/
theorem ModuleSerializer.null_resolver_rejected_witness :
    ((none : Option (BasicSourceLineResolver demo_types)) = none
      ∨ (some [] : Option (List (String × List Nat))) = none)
    ∧ demo.ConvertOneModule recording_resolver "a.out" none (some []) demo_state
        = Outcome.returned false (some [], demo_state)
    ∧ demo.ConvertAllModules recording_resolver none (some []) demo_state
        = Outcome.returned () (some [], demo_state) :=
  ⟨Or.inl rfl,
    demo.null_resolver_rejected recording_resolver "a.out" none (some []) demo_state
      (Or.inl rfl)⟩

end google_breakpad
